import Mathlib

/-!
Verification development for the `dco-capacity-reporter` repository
(`src/capacity_reporter.py`).

The Python source is shallowly embedded:
  * JSON/Python numbers become `ℚ` (ages, watts) and `ℤ` (rack units);
  * Python's insertion-ordered `dict` used for the `racks` grouping becomes
    an association list in insertion order;
  * `f"{x:.2f}"` / `f"{x:.1f}%"` float formatting is modelled over exact
    rationals with round-half-to-even (`fmtFixed`, `fmtPct`);
  * `f"{s:<n}"` left-justification becomes `padR`;
  * a second, dictionary-level embedding (`AssetD`, `runD`) models records as
    partial field maps so that missing-field behaviour (Python `KeyError`)
    is observable; fallible code returns `Except`.
-/

/-! ## Module-level configuration constants (source lines 4-8) -/

def MAX_RACK_UNITS : ℤ := 42

def MAX_RACK_POWER_KVA : ℚ := 5

def EOL_AGE_YEARS : ℚ := 5

def CRITICAL_VENDORS : List String := ["HP", "EMC"]

/-! ## Data model (spec section 3): a well-formed asset record -/

structure Asset where
  asset_id : String
  rack_id : String
  status : String
  rack_units : ℤ
  power_watts : ℚ
  asset_age_years : ℚ
  vendor : String
deriving DecidableEq

instance : Inhabited Asset := ⟨⟨"", "", "", 0, 0, 0, ""⟩⟩

/-- The per-rack accumulator dict `{'units_used': 0, 'power_used_watts': 0}`. -/
structure RackAgg where
  units_used : ℤ
  power_used_watts : ℚ
deriving DecidableEq

/-- The capacity-metric dict appended in `analyze_capacity` (fields in source
order; the three formatted fields are stored as strings, as in the source). -/
structure CapacityMetric where
  rack_id : String
  units_used : ℤ
  power_used_kva : String
  power_utilization : String
  units_utilization : String
deriving DecidableEq

/-- An EOL-candidate dict from `check_compliance_and_eol`. -/
structure EolRec where
  id : String
  rack : String
  age : ℚ
  status : String
deriving DecidableEq

/-- A vendor-risk dict from `check_compliance_and_eol`. -/
structure VendorRec where
  id : String
  rack : String
  vendor : String
  age : ℚ
deriving DecidableEq

/-! ## String formatting model -/

/-- Python `c * n` string repetition. -/
def srep (c : Char) (n : Nat) : String := String.mk (List.replicate n c)

/-- Python `f"{s:<n}"`: left-justify by padding with spaces to width `n`
(strings longer than `n` are unchanged). -/
def padR (s : String) (n : Nat) : String := s ++ srep ' ' (n - s.length)

def padZeros (s : String) (n : Nat) : String := srep '0' (n - s.length) ++ s

def ratFloor (q : ℚ) : ℤ := Int.fdiv q.num (q.den : ℤ)

/-- Round to the nearest integer, ties to even (the rounding used by Python's
fixed-point float formatting, modelled here over exact rationals). -/
def roundHalfEven (q : ℚ) : ℤ :=
  let f := ratFloor q
  let r := q - (f : ℚ)
  if r < 1 / 2 then f
  else if 1 / 2 < r then f + 1
  else if f % 2 = 0 then f else f + 1

/-- Python `f"{q:.prec f}"` on a non-negative value, over exact rationals. -/
def fmtFixed (prec : Nat) (q : ℚ) : String :=
  let n := roundHalfEven (q * (10 : ℚ) ^ prec)
  let sgn := if n < 0 then "-" else ""
  let m := n.natAbs
  sgn ++ toString (m / 10 ^ prec) ++ "." ++ padZeros (toString (m % 10 ^ prec)) prec

/-- Python `f"{q:.1f}%"`. -/
def fmtPct (q : ℚ) : String := fmtFixed 1 q ++ "%"

/-! ## Capacity aggregator (`analyze_capacity`, source lines 21-58) -/

/-- First-match lookup in the insertion-ordered `racks` dict. -/
def lookupR : List (String × RackAgg) → String → Option RackAgg
  | [], _ => none
  | (k, v) :: t, key => if k = key then some v else lookupR t key

/-- Update the entry of an existing key of the `racks` dict in place. -/
def updateR : List (String × RackAgg) → String → (RackAgg → RackAgg) → List (String × RackAgg)
  | [], _, _ => []
  | (k, v) :: t, key, f => if k = key then (k, f v) :: t else (k, v) :: updateR t key f

/-- Keys of the `racks` dict, in insertion order. -/
def keysOf (l : List (String × RackAgg)) : List String := l.map Prod.fst

/-- One iteration of the first loop of `analyze_capacity`: create the rack
entry on first sight of `rack_id`, then add the asset's units and watts only
when `status == 'Online'`. -/
def processAsset (racks : List (String × RackAgg)) (asset : Asset) : List (String × RackAgg) :=
  let racks := if lookupR racks asset.rack_id = none then racks ++ [(asset.rack_id, ⟨0, 0⟩)] else racks
  if asset.status = "Online" then
    updateR racks asset.rack_id
      (fun m => ⟨m.units_used + asset.rack_units, m.power_used_watts + asset.power_watts⟩)
  else racks

/-- The `racks` dict after the first loop of `analyze_capacity`. -/
def racksOf (assets : List Asset) : List (String × RackAgg) :=
  assets.foldl processAsset []

/-- The metric dict appended by the second loop of `analyze_capacity`
(source lines 44-56). -/
def mkCapacityMetric (rm : String × RackAgg) : CapacityMetric :=
  let power_used_kva := rm.2.power_used_watts / 1000
  let power_utilization := power_used_kva / MAX_RACK_POWER_KVA * 100
  let units_utilization := (rm.2.units_used : ℚ) / (MAX_RACK_UNITS : ℚ) * 100
  ⟨rm.1, rm.2.units_used, fmtFixed 2 power_used_kva, fmtPct power_utilization,
    fmtPct units_utilization⟩

/-- `analyze_capacity`: returns `(capacity_metrics, total_assets,
total_power_used_watts)`. -/
def analyze_capacity (assets : List Asset) : List CapacityMetric × Nat × ℚ :=
  let total_assets := assets.length
  let racks := racksOf assets
  let fin := racks.foldl
    (fun acc rm => (acc.1 ++ [mkCapacityMetric rm], acc.2 + rm.2.power_used_watts))
    (([] : List CapacityMetric), (0 : ℚ))
  (fin.1, total_assets, fin.2)

/-! ## Compliance classifier (`check_compliance_and_eol`, source lines 60-85) -/

def mkEolRec (a : Asset) : EolRec := ⟨a.asset_id, a.rack_id, a.asset_age_years, "EOL Risk"⟩

def mkVendorRec (a : Asset) : VendorRec := ⟨a.asset_id, a.rack_id, a.vendor, a.asset_age_years⟩

/-- The EOL condition `asset['asset_age_years'] >= EOL_AGE_YEARS and
asset['status'] != 'Decom Pending'`. -/
def eolPred (a : Asset) : Bool :=
  decide (EOL_AGE_YEARS ≤ a.asset_age_years) && !(a.status == "Decom Pending")

/-- The vendor-risk condition `asset['vendor'] in CRITICAL_VENDORS and
asset['status'] == 'Online'`. -/
def vendorPred (a : Asset) : Bool :=
  CRITICAL_VENDORS.contains a.vendor && (a.status == "Online")

/-- One iteration of the loop of `check_compliance_and_eol`: the EOL check
then the vendor-risk check, each appending independently. -/
def complianceStep (acc : List EolRec × List VendorRec) (asset : Asset) :
    List EolRec × List VendorRec :=
  let acc := if eolPred asset then (acc.1 ++ [mkEolRec asset], acc.2) else acc
  if vendorPred asset then (acc.1, acc.2 ++ [mkVendorRec asset]) else acc

/-- `check_compliance_and_eol`: returns `(eol_assets, vendor_risk_assets)`. -/
def check_compliance_and_eol (assets : List Asset) : List EolRec × List VendorRec :=
  assets.foldl complianceStep ([], [])

/-! ## Specification-side sums used to characterize the aggregator -/

/-- Sum of `rack_units` over the online assets of rack `rid`. -/
def specUnits (assets : List Asset) (rid : String) : ℤ :=
  ((assets.filter (fun a => a.rack_id == rid && a.status == "Online")).map Asset.rack_units).sum

/-- Sum of `power_watts` over the online assets of rack `rid`. -/
def specPower (assets : List Asset) (rid : String) : ℚ :=
  ((assets.filter (fun a => a.rack_id == rid && a.status == "Online")).map Asset.power_watts).sum

/-- Sum of `power_watts` over all online assets. -/
def onlinePowerSum (assets : List Asset) : ℚ :=
  ((assets.filter (fun a => a.status == "Online")).map Asset.power_watts).sum

def sumPowerR (l : List (String × RackAgg)) : ℚ :=
  (l.map (fun rm => rm.2.power_used_watts)).sum

/-- Append an element unless already seen. -/
def insSeen (acc : List String) (r : String) : List String :=
  if r ∈ acc then acc else acc ++ [r]

/-- The distinct elements of a list, in order of first appearance. -/
def firstSeen (l : List String) : List String := l.foldl insSeen []

/-! ## Report formatter (`generate_report`, source lines 87-136) -/

/-- A row of the section-1 capacity table. -/
def capacityRow (m : CapacityMetric) : String :=
  padR m.rack_id 10 ++ padR (toString m.units_used) 10 ++ padR m.power_used_kva 15 ++
    padR m.units_utilization 12 ++ padR m.power_utilization 12

/-- A row of the EOL table (`f"...{asset['age']:<10.1f}..."`). -/
def eolRow (a : EolRec) : String :=
  padR a.id 15 ++ padR a.rack 10 ++ padR (fmtFixed 1 a.age) 10 ++ padR a.status 15

/-- A row of the vendor-risk table. -/
def vendorRow (a : VendorRec) : String :=
  padR a.id 15 ++ padR a.rack 10 ++ padR a.vendor 10 ++ padR (fmtFixed 1 a.age) 10

/-- The `report` list built by `generate_report`, one entry per `append`.
Python's `if eol_assets:` / `if vendor_risk_assets:` truthiness tests become
emptiness tests; `"5.0"` in the EOL header is `str(EOL_AGE_YEARS)`. -/
def reportLines (capacity_metrics : List CapacityMetric) (total_assets : Nat)
    (total_power_watts : ℚ) (eol_assets : List EolRec)
    (vendor_risk_assets : List VendorRec) : List String :=
  let report : List String := []
  let report := report ++ [srep '=' 60]
  let report := report ++ ["  DCO CAPACITY AND COMPLIANCE REPORT"]
  let report := report ++ ["  Total Assets Tracked: " ++ toString total_assets]
  let report := report ++
    ["  Total Active Power Draw: " ++ fmtFixed 2 (total_power_watts / 1000) ++ " kVA"]
  let report := report ++ [srep '=' 60]
  let report := report ++ ["\n"]
  let report := report ++ ["--- 1. RACK CAPACITY UTILIZATION (by Rack ID) ---\n"]
  let report := report ++
    [padR "Rack ID" 10 ++ padR "U Used" 10 ++ padR "Power (kVA)" 15 ++ padR "U Util." 12 ++
      padR "Power Util." 12]
  let report := report ++ [srep '-' 60]
  let report := report ++ capacity_metrics.map capacityRow
  let report := report ++ ["\n"]
  let report := report ++ ["--- 2. COMPLIANCE & END-OF-LIFE RISKS ---\n"]
  let report := report ++
    (if eol_assets = [] then ["### EOL Assets: 0 devices identified. Compliance maintained."]
     else
      ("### EOL Assets (Age >= 5.0 Years): " ++ toString eol_assets.length ++
          " Devices Identified") ::
        (padR "Asset ID" 15 ++ padR "Rack ID" 10 ++ padR "Age (Yrs)" 10 ++ padR "Status" 15) ::
        srep '-' 50 :: eol_assets.map eolRow)
  let report := report ++ ["\n"]
  let report := report ++
    (if vendor_risk_assets = [] then
      ["### High-Risk Vendors: No active assets from critical vendors identified."]
     else
      ("### High-Risk Vendor Assets (" ++ String.intercalate ", " CRITICAL_VENDORS ++ "): " ++
          toString vendor_risk_assets.length ++ " Devices Identified") ::
        (padR "Asset ID" 15 ++ padR "Rack ID" 10 ++ padR "Vendor" 10 ++ padR "Age (Yrs)" 10) ::
        srep '-' 45 :: vendor_risk_assets.map vendorRow)
  let report := report ++ ["\n"]
  let report := report ++ ["--- END OF REPORT ---"]
  report

/-- `generate_report`: `"\n".join(report)`. -/
def generate_report (capacity_metrics : List CapacityMetric) (total_assets : Nat)
    (total_power_watts : ℚ) (eol_assets : List EolRec)
    (vendor_risk_assets : List VendorRec) : String :=
  String.intercalate "\n"
    (reportLines capacity_metrics total_assets total_power_watts eol_assets vendor_risk_assets)

/-! ## Spec-side decomposition of the report layout (for the formatter claim) -/

/-- Header block, section-1 capacity table and section-2 banner. -/
def reportHead (capacity_metrics : List CapacityMetric) (total_assets : Nat)
    (total_power_watts : ℚ) : List String :=
  [srep '=' 60, "  DCO CAPACITY AND COMPLIANCE REPORT",
    "  Total Assets Tracked: " ++ toString total_assets,
    "  Total Active Power Draw: " ++ fmtFixed 2 (total_power_watts / 1000) ++ " kVA",
    srep '=' 60, "\n", "--- 1. RACK CAPACITY UTILIZATION (by Rack ID) ---\n",
    padR "Rack ID" 10 ++ padR "U Used" 10 ++ padR "Power (kVA)" 15 ++ padR "U Util." 12 ++
      padR "Power Util." 12,
    srep '-' 60] ++ capacity_metrics.map capacityRow ++
    ["\n", "--- 2. COMPLIANCE & END-OF-LIFE RISKS ---\n"]

/-- The lines the EOL branch contributes. -/
def eolSectionSpec (eol_assets : List EolRec) : List String :=
  if eol_assets = [] then ["### EOL Assets: 0 devices identified. Compliance maintained."]
  else
    ("### EOL Assets (Age >= 5.0 Years): " ++ toString eol_assets.length ++
        " Devices Identified") ::
      (padR "Asset ID" 15 ++ padR "Rack ID" 10 ++ padR "Age (Yrs)" 10 ++ padR "Status" 15) ::
      srep '-' 50 :: eol_assets.map eolRow

/-- The lines the vendor-risk branch contributes. -/
def vendorSectionSpec (vendor_risk_assets : List VendorRec) : List String :=
  if vendor_risk_assets = [] then
    ["### High-Risk Vendors: No active assets from critical vendors identified."]
  else
    ("### High-Risk Vendor Assets (" ++ String.intercalate ", " CRITICAL_VENDORS ++ "): " ++
        toString vendor_risk_assets.length ++ " Devices Identified") ::
      (padR "Asset ID" 15 ++ padR "Rack ID" 10 ++ padR "Vendor" 10 ++ padR "Age (Yrs)" 10) ::
      srep '-' 45 :: vendor_risk_assets.map vendorRow

/-! ## The `__main__` pipeline (source lines 138-155) -/

/-- The full aggregate-classify-format pipeline applied to an asset list. -/
def reportOf (assets : List Asset) : String :=
  generate_report (analyze_capacity assets).1 (analyze_capacity assets).2.1
    (analyze_capacity assets).2.2 (check_compliance_and_eol assets).1
    (check_compliance_and_eol assets).2

/-- `__main__`: `load_data` yields a list (empty when the file is missing) and
the report is generated only under `if assets:`, i.e. only when the list is
non-empty; otherwise nothing is printed. -/
def mainReport (assets : List Asset) : Option String :=
  if assets = [] then none else some (reportOf assets)

/-! ## Store-passing embedding (for the frame claim)

Asset records live in a heap (a list addressed by index); the loop bodies of
both core functions are re-run against the heap, threading it through every
iteration, so that the absence of writes to the input is a provable fact
rather than a convention. -/

def readAsset (heap : List Asset) (i : Nat) : Asset := heap.getD i default

/-- One `analyze_capacity` loop iteration over the heap: read the asset at
address `i`, update only the local `racks` dict. -/
def analyzeStepH (s : List Asset × List (String × RackAgg)) (i : Nat) :
    List Asset × List (String × RackAgg) :=
  (s.1, processAsset s.2 (readAsset s.1 i))

/-- One `check_compliance_and_eol` loop iteration over the heap. -/
def complianceStepH (s : List Asset × (List EolRec × List VendorRec)) (i : Nat) :
    List Asset × (List EolRec × List VendorRec) :=
  (s.1, complianceStep s.2 (readAsset s.1 i))

/-! ## Dictionary-level embedding (for the malformed-record claim)

Records are partial maps from field names to Python values, so a missing
field is representable and surfaces as Python's `KeyError`. -/

inductive PyVal where
  | s : String → PyVal
  | num : ℚ → PyVal
deriving DecidableEq

inductive PyErr where
  | keyError : String → PyErr
  | typeError : PyErr
deriving DecidableEq

abbrev AssetD := List (String × PyVal)

def lookupD : AssetD → String → Option PyVal
  | [], _ => none
  | (k, v) :: t, key => if k = key then some v else lookupD t key

/-- `asset[k]`: raises `KeyError(k)` when the field is absent. -/
def getItemD (a : AssetD) (k : String) : Except PyErr PyVal :=
  match lookupD a k with
  | some v => Except.ok v
  | none => Except.error (PyErr.keyError k)

/-- `q <= v` on a Python value: `TypeError` when `v` is not a number. -/
def pyGe (v : PyVal) (q : ℚ) : Except PyErr Bool :=
  match v with
  | PyVal.num x => Except.ok (decide (q ≤ x))
  | PyVal.s _ => Except.error PyErr.typeError

/-- Extract a number: `TypeError` when the value is a string. -/
def asNum (v : PyVal) : Except PyErr ℚ :=
  match v with
  | PyVal.num x => Except.ok x
  | PyVal.s _ => Except.error PyErr.typeError

structure RackAggD where
  units_used : ℚ
  power_used_watts : ℚ
deriving DecidableEq

def lookupRD : List (PyVal × RackAggD) → PyVal → Option RackAggD
  | [], _ => none
  | (k, v) :: t, key => if k = key then some v else lookupRD t key

def updateRD : List (PyVal × RackAggD) → PyVal → (RackAggD → RackAggD) →
    List (PyVal × RackAggD)
  | [], _, _ => []
  | (k, v) :: t, key, f => if k = key then (k, f v) :: t else (k, v) :: updateRD t key f

/-- The first loop of `analyze_capacity` over dictionary-level records; any
missing field or non-numeric unit/watt value aborts the whole loop. -/
def buildRacksD : List AssetD → List (PyVal × RackAggD) → Except PyErr (List (PyVal × RackAggD))
  | [], racks => Except.ok racks
  | asset :: rest, racks =>
    match getItemD asset "rack_id" with
    | Except.error e => Except.error e
    | Except.ok rid =>
      let racks := if lookupRD racks rid = none then racks ++ [(rid, ⟨0, 0⟩)] else racks
      match getItemD asset "status" with
      | Except.error e => Except.error e
      | Except.ok st =>
        if st = PyVal.s "Online" then
          match getItemD asset "rack_units" with
          | Except.error e => Except.error e
          | Except.ok ru =>
            match asNum ru with
            | Except.error e => Except.error e
            | Except.ok ruq =>
              match getItemD asset "power_watts" with
              | Except.error e => Except.error e
              | Except.ok pw =>
                match asNum pw with
                | Except.error e => Except.error e
                | Except.ok pwq =>
                  buildRacksD rest (updateRD racks rid
                    (fun m => ⟨m.units_used + ruq, m.power_used_watts + pwq⟩))
        else buildRacksD rest racks

structure CapacityMetricD where
  rack_id : PyVal
  units_used : ℚ
  power_used_kva : String
  power_utilization : String
  units_utilization : String
deriving DecidableEq

def mkCapacityMetricD (rm : PyVal × RackAggD) : CapacityMetricD :=
  let power_used_kva := rm.2.power_used_watts / 1000
  let power_utilization := power_used_kva / MAX_RACK_POWER_KVA * 100
  let units_utilization := rm.2.units_used / (MAX_RACK_UNITS : ℚ) * 100
  ⟨rm.1, rm.2.units_used, fmtFixed 2 power_used_kva, fmtPct power_utilization,
    fmtPct units_utilization⟩

/-- `analyze_capacity` over dictionary-level records. The finalization loop
reads no asset record and cannot fail. -/
def analyzeCapacityD (assets : List AssetD) : Except PyErr (List CapacityMetricD × Nat × ℚ) :=
  match buildRacksD assets [] with
  | Except.error e => Except.error e
  | Except.ok racks =>
    let fin := racks.foldl
      (fun acc rm => (acc.1 ++ [mkCapacityMetricD rm], acc.2 + rm.2.power_used_watts))
      (([] : List CapacityMetricD), (0 : ℚ))
    Except.ok (fin.1, assets.length, fin.2)

structure EolRecD where
  id : PyVal
  rack : PyVal
  age : PyVal
  status : String
deriving DecidableEq

structure VendorRecD where
  id : PyVal
  rack : PyVal
  vendor : PyVal
  age : PyVal
deriving DecidableEq

/-- One `check_compliance_and_eol` iteration over a dictionary-level record,
with Python's left-to-right, short-circuit field accesses: `status` is read
by the EOL check only when the age test passed, and by the vendor check only
when the vendor is critical; `asset_id`/`rack_id` only when a record is
appended. The age value is read again for the appended dicts; the reread
returns the same value on an unchanged record. -/
def checkOneD (acc : List EolRecD × List VendorRecD) (asset : AssetD) :
    Except PyErr (List EolRecD × List VendorRecD) :=
  match getItemD asset "asset_age_years" with
  | Except.error e => Except.error e
  | Except.ok ageV =>
    match pyGe ageV EOL_AGE_YEARS with
    | Except.error e => Except.error e
    | Except.ok geq =>
      let eolPart : Except PyErr (List EolRecD × List VendorRecD) :=
        if geq then
          match getItemD asset "status" with
          | Except.error e => Except.error e
          | Except.ok st =>
            if st ≠ PyVal.s "Decom Pending" then
              match getItemD asset "asset_id", getItemD asset "rack_id" with
              | Except.error e, _ => Except.error e
              | _, Except.error e => Except.error e
              | Except.ok i, Except.ok r =>
                Except.ok (acc.1 ++ [⟨i, r, ageV, "EOL Risk"⟩], acc.2)
            else Except.ok acc
        else Except.ok acc
      match eolPart with
      | Except.error e => Except.error e
      | Except.ok acc2 =>
        match getItemD asset "vendor" with
        | Except.error e => Except.error e
        | Except.ok v =>
          if (CRITICAL_VENDORS.map PyVal.s).contains v then
            match getItemD asset "status" with
            | Except.error e => Except.error e
            | Except.ok st =>
              if st = PyVal.s "Online" then
                match getItemD asset "asset_id", getItemD asset "rack_id" with
                | Except.error e, _ => Except.error e
                | _, Except.error e => Except.error e
                | Except.ok i, Except.ok r =>
                  Except.ok (acc2.1, acc2.2 ++ [⟨i, r, v, ageV⟩])
              else Except.ok acc2
          else Except.ok acc2

def checkComplianceD : List AssetD → (List EolRecD × List VendorRecD) →
    Except PyErr (List EolRecD × List VendorRecD)
  | [], acc => Except.ok acc
  | a :: rest, acc =>
    match checkOneD acc a with
    | Except.error e => Except.error e
    | Except.ok acc2 => checkComplianceD rest acc2

/-- The `__main__` computation over dictionary-level records: aggregation then
classification; the first error aborts the run with no partial output. -/
def runD (assets : List AssetD) :
    Except PyErr ((List CapacityMetricD × Nat × ℚ) × (List EolRecD × List VendorRecD)) :=
  match analyzeCapacityD assets with
  | Except.error e => Except.error e
  | Except.ok cap =>
    match checkComplianceD assets ([], []) with
    | Except.error e => Except.error e
    | Except.ok risks => Except.ok (cap, risks)

def isOkE {α : Type} (e : Except PyErr α) : Bool :=
  match e with
  | Except.ok _ => true
  | Except.error _ => false

/-! ## Concrete records used by witnesses and counterexamples -/

/-- An online asset that overfills its rack: 50 U of 42, 6 kVA of 5. -/
def wAsset1 : Asset := ⟨"A1", "R1", "Online", 50, 6000, 6, "HP"⟩

/-- The rack aggregate `wAsset1` produces. -/
def wRack : String × RackAgg := ("R1", ⟨50, 6000⟩)

/-- Old (age 10) but already `Decom Pending`. -/
def wAssetDecom : Asset := ⟨"A2", "R1", "Decom Pending", 2, 100, 10, "HP"⟩

/-- A non-online asset: its rack appears with zero used capacity. -/
def wAssetOffline : Asset := ⟨"A3", "R2", "Offline", 4, 1000, 1, "Dell"⟩

/-- A critical-vendor asset that is not online. -/
def wAssetVendOff : Asset := ⟨"A4", "R1", "Offline", 1, 100, 1, "EMC"⟩

def wEol : EolRec := ⟨"A1", "R1", 6, "EOL Risk"⟩

def wVend : VendorRec := ⟨"A1", "R1", "HP", 6⟩

/-- A record with every field except `rack_id`; asset id `"A1"`. -/
def dictMissingRackA1 : AssetD :=
  [("asset_id", PyVal.s "A1"), ("status", PyVal.s "Online"), ("rack_units", PyVal.num 2),
    ("power_watts", PyVal.num 500), ("asset_age_years", PyVal.num 6), ("vendor", PyVal.s "HP")]

/-- Identical to `dictMissingRackA1` except for the asset id. -/
def dictMissingRackA2 : AssetD :=
  [("asset_id", PyVal.s "A2"), ("status", PyVal.s "Online"), ("rack_units", PyVal.num 2),
    ("power_watts", PyVal.num 500), ("asset_age_years", PyVal.num 6), ("vendor", PyVal.s "HP")]

/-- A record missing the required field `asset_id`, shaped so that no branch
of the run ever reads `asset_id`: not online, young, non-critical vendor. -/
def dictMissingAssetId : AssetD :=
  [("rack_id", PyVal.s "R1"), ("status", PyVal.s "Offline"), ("rack_units", PyVal.num 4),
    ("power_watts", PyVal.num 100), ("asset_age_years", PyVal.num 1), ("vendor", PyVal.s "Dell")]

/-- A record carrying every field of the data model, with the numeric fields
numeric: such a record can fail no field access of the run. -/
def wfAssetD (a : AssetD) : Prop :=
  (∃ v, lookupD a "asset_id" = some v) ∧ (∃ v, lookupD a "rack_id" = some v) ∧
    (∃ v, lookupD a "status" = some v) ∧
    (∃ q, lookupD a "rack_units" = some (PyVal.num q)) ∧
    (∃ q, lookupD a "power_watts" = some (PyVal.num q)) ∧
    (∃ q, lookupD a "asset_age_years" = some (PyVal.num q)) ∧
    (∃ v, lookupD a "vendor" = some v)

/-- A record that survives one iteration of the aggregation loop: `rack_id`
and `status` present, and numeric `rack_units`/`power_watts` when online. -/
def analyzeWfD (a : AssetD) : Prop :=
  (∃ v, lookupD a "rack_id" = some v) ∧ (∃ v, lookupD a "status" = some v) ∧
    (lookupD a "status" = some (PyVal.s "Online") →
      (∃ q, lookupD a "rack_units" = some (PyVal.num q)) ∧
        (∃ q, lookupD a "power_watts" = some (PyVal.num q)))

/-- A fully well-formed record, used as the prefix in the malformed-record
witness. -/
def dictComplete : AssetD :=
  [("asset_id", PyVal.s "A0"), ("rack_id", PyVal.s "R9"), ("status", PyVal.s "Online"),
    ("rack_units", PyVal.num 2), ("power_watts", PyVal.num 500),
    ("asset_age_years", PyVal.num 6), ("vendor", PyVal.s "HP")]

/-! ## Association-list lemmas for the `racks` dict -/

theorem lookupR_updateR (l : List (String × RackAgg)) (key k : String) (f : RackAgg → RackAgg) :
    lookupR (updateR l key f) k = if key = k then (lookupR l k).map f else lookupR l k := by
  induction l with
  | nil => simp only [updateR, lookupR]; split <;> rfl
  | cons hd tl ih =>
    obtain ⟨k0, v0⟩ := hd
    simp only [updateR]
    by_cases h1 : k0 = key
    · rw [if_pos h1]
      by_cases h2 : k0 = k
      · have hkk : key = k := h1.symm.trans h2
        rw [if_pos hkk]
        simp [lookupR, h2]
      · have hkk : ¬key = k := fun hh => h2 (h1.trans hh)
        rw [if_neg hkk]
        simp [lookupR, h2]
    · rw [if_neg h1]
      by_cases h2 : k0 = k
      · have hkk : ¬key = k := fun hh => h1 (h2.trans hh.symm)
        rw [if_neg hkk]
        simp [lookupR, h2]
      · simp [lookupR, h2, ih]

theorem lookupR_append_single (l : List (String × RackAgg)) (key : String) (v : RackAgg)
    (k : String) :
    lookupR (l ++ [(key, v)]) k =
      match lookupR l k with
      | some w => some w
      | none => if key = k then some v else none := by
  induction l with
  | nil => simp [lookupR]
  | cons hd tl ih =>
    obtain ⟨k0, v0⟩ := hd
    by_cases h : k0 = k
    · subst h; simp [lookupR]
    · simp [lookupR, h, ih]

theorem keysOf_updateR (l : List (String × RackAgg)) (key : String) (f : RackAgg → RackAgg) :
    keysOf (updateR l key f) = keysOf l := by
  induction l with
  | nil => rfl
  | cons hd tl ih =>
    obtain ⟨k0, v0⟩ := hd
    simp only [updateR]
    split_ifs with h
    · rfl
    · simp only [keysOf, List.map_cons]
      exact congrArg (fun s => k0 :: s) ih

theorem lookupR_eq_none_iff (l : List (String × RackAgg)) (k : String) :
    lookupR l k = none ↔ k ∉ keysOf l := by
  induction l with
  | nil => simp [lookupR, keysOf]
  | cons hd tl ih =>
    obtain ⟨k0, v0⟩ := hd
    by_cases h : k0 = k
    · subst h; simp [lookupR, keysOf]
    · simp [lookupR, keysOf, h, ih, Ne.symm h]

theorem mem_of_lookupR (l : List (String × RackAgg)) (k : String) (v : RackAgg)
    (h : lookupR l k = some v) : (k, v) ∈ l := by
  induction l with
  | nil => simp [lookupR] at h
  | cons hd tl ih =>
    obtain ⟨k0, v0⟩ := hd
    by_cases hk : k0 = k
    · subst hk
      simp only [lookupR, eq_self_iff_true, if_true, Option.some.injEq] at h
      subst h
      exact List.mem_cons_self _ _
    · simp only [lookupR, if_neg hk] at h
      exact List.mem_cons_of_mem _ (ih h)

theorem sumPowerR_append_single (l : List (String × RackAgg)) (key : String) (v : RackAgg) :
    sumPowerR (l ++ [(key, v)]) = sumPowerR l + v.power_used_watts := by
  simp [sumPowerR]

theorem sumPowerR_updateR_add (l : List (String × RackAgg)) (key : String) (du : ℤ) (dp : ℚ)
    (m : RackAgg) (h : lookupR l key = some m) :
    sumPowerR (updateR l key
      (fun x => ⟨x.units_used + du, x.power_used_watts + dp⟩)) = sumPowerR l + dp := by
  induction l with
  | nil => simp [lookupR] at h
  | cons hd tl ih =>
    obtain ⟨k0, v0⟩ := hd
    by_cases hk : k0 = key
    · subst hk
      simp only [updateR, eq_self_iff_true, if_true]
      simp only [sumPowerR, List.map_cons, List.sum_cons]
      ring
    · simp only [lookupR, if_neg hk] at h
      simp only [updateR, if_neg hk]
      simp only [sumPowerR, List.map_cons, List.sum_cons] at ih ⊢
      rw [ih h]
      ring

/-! ## Per-iteration characterization of the aggregation loop -/

theorem lookupR_processAsset (racks : List (String × RackAgg)) (a : Asset) (k : String) :
    lookupR (processAsset racks a) k =
      match lookupR racks k with
      | some m => some (if a.rack_id = k ∧ a.status = "Online" then
          ⟨m.units_used + a.rack_units, m.power_used_watts + a.power_watts⟩ else m)
      | none => if a.rack_id = k then
          some (if a.status = "Online" then ⟨a.rack_units, a.power_watts⟩ else ⟨0, 0⟩)
        else none := by
  simp only [processAsset]
  by_cases h1 : a.status = "Online"
  · rw [if_pos h1]
    by_cases h0 : lookupR racks a.rack_id = none
    · rw [if_pos h0, lookupR_updateR]
      by_cases h2 : a.rack_id = k
      · subst h2
        rw [if_pos rfl, lookupR_append_single, h0]
        simp [h1]
      · rw [if_neg h2, lookupR_append_single]
        cases hk : lookupR racks k <;> simp [h2]
    · rw [if_neg h0, lookupR_updateR]
      by_cases h2 : a.rack_id = k
      · subst h2
        rw [if_pos rfl]
        cases hk : lookupR racks a.rack_id with
        | none => exact absurd hk h0
        | some m => simp [h1]
      · rw [if_neg h2]
        cases hk : lookupR racks k <;> simp [h2]
  · rw [if_neg h1]
    by_cases h0 : lookupR racks a.rack_id = none
    · rw [if_pos h0, lookupR_append_single]
      by_cases h2 : a.rack_id = k
      · subst h2
        rw [h0]
        simp [h1]
      · cases hk : lookupR racks k <;> simp [h2, h1]
    · rw [if_neg h0]
      by_cases h2 : a.rack_id = k
      · subst h2
        cases hk : lookupR racks a.rack_id with
        | none => exact absurd hk h0
        | some m => simp [h1]
      · cases hk : lookupR racks k <;> simp [h2, h1]

theorem keysOf_processAsset (racks : List (String × RackAgg)) (a : Asset) :
    keysOf (processAsset racks a) = insSeen (keysOf racks) a.rack_id := by
  simp only [processAsset, insSeen]
  by_cases h1 : a.status = "Online"
  · rw [if_pos h1]
    by_cases h0 : lookupR racks a.rack_id = none
    · rw [if_pos h0, keysOf_updateR]
      rw [lookupR_eq_none_iff] at h0
      rw [if_neg h0]
      simp [keysOf]
    · rw [if_neg h0, keysOf_updateR]
      have hmem : a.rack_id ∈ keysOf racks := by
        by_contra hc
        exact h0 ((lookupR_eq_none_iff _ _).mpr hc)
      rw [if_pos hmem]
  · rw [if_neg h1]
    by_cases h0 : lookupR racks a.rack_id = none
    · rw [if_pos h0]
      rw [lookupR_eq_none_iff] at h0
      rw [if_neg h0]
      simp [keysOf]
    · have hmem : a.rack_id ∈ keysOf racks := by
        by_contra hc
        exact h0 ((lookupR_eq_none_iff _ _).mpr hc)
      rw [if_neg h0, if_pos hmem]

theorem sumPowerR_processAsset (racks : List (String × RackAgg)) (a : Asset) :
    sumPowerR (processAsset racks a) =
      sumPowerR racks + (if a.status = "Online" then a.power_watts else 0) := by
  simp only [processAsset]
  by_cases h1 : a.status = "Online"
  · rw [if_pos h1, if_pos h1]
    by_cases h0 : lookupR racks a.rack_id = none
    · rw [if_pos h0]
      have hl : lookupR (racks ++ [(a.rack_id, ⟨0, 0⟩)]) a.rack_id = some ⟨0, 0⟩ := by
        rw [lookupR_append_single, h0]
        simp
      rw [sumPowerR_updateR_add _ _ _ _ _ hl, sumPowerR_append_single]
      simp
    · obtain ⟨m, hm⟩ : ∃ m, lookupR racks a.rack_id = some m := by
        cases hx : lookupR racks a.rack_id with
        | none => exact absurd hx h0
        | some m => exact ⟨m, rfl⟩
      rw [if_neg h0, sumPowerR_updateR_add _ _ _ _ _ hm]
  · rw [if_neg h1, if_neg h1]
    by_cases h0 : lookupR racks a.rack_id = none
    · rw [if_pos h0, sumPowerR_append_single]
    · rw [if_neg h0]
      simp

/-! ## Head decompositions of the specification-side sums -/

theorem specUnits_cons (a : Asset) (l : List Asset) (rid : String) :
    specUnits (a :: l) rid =
      (if a.rack_id = rid ∧ a.status = "Online" then a.rack_units else 0) + specUnits l rid := by
  simp only [specUnits, List.filter_cons]
  by_cases h : a.rack_id = rid ∧ a.status = "Online"
  · simp [h, h.1, h.2]
  · have hb : ¬(a.rack_id == rid && a.status == "Online") = true := by
      simp only [Bool.and_eq_true, beq_iff_eq]
      exact h
    simp [hb, h]

theorem specPower_cons (a : Asset) (l : List Asset) (rid : String) :
    specPower (a :: l) rid =
      (if a.rack_id = rid ∧ a.status = "Online" then a.power_watts else 0) + specPower l rid := by
  simp only [specPower, List.filter_cons]
  by_cases h : a.rack_id = rid ∧ a.status = "Online"
  · simp [h, h.1, h.2]
  · have hb : ¬(a.rack_id == rid && a.status == "Online") = true := by
      simp only [Bool.and_eq_true, beq_iff_eq]
      exact h
    simp [hb, h]

theorem onlinePowerSum_cons (a : Asset) (l : List Asset) :
    onlinePowerSum (a :: l) =
      (if a.status = "Online" then a.power_watts else 0) + onlinePowerSum l := by
  simp only [onlinePowerSum, List.filter_cons]
  by_cases h : a.status = "Online"
  · simp [h]
  · simp [h]

/-! ## Whole-loop characterizations -/

theorem keysOf_foldl (assets : List Asset) :
    ∀ racks, keysOf (List.foldl processAsset racks assets) =
      List.foldl insSeen (keysOf racks) (assets.map Asset.rack_id) := by
  induction assets with
  | nil => intro racks; rfl
  | cons a rest ih =>
    intro racks
    simp only [List.foldl_cons, List.map_cons]
    rw [ih, keysOf_processAsset]

theorem sumPowerR_foldl (assets : List Asset) :
    ∀ racks, sumPowerR (List.foldl processAsset racks assets) =
      sumPowerR racks + onlinePowerSum assets := by
  induction assets with
  | nil => intro racks; simp [onlinePowerSum]
  | cons a rest ih =>
    intro racks
    simp only [List.foldl_cons]
    rw [ih, sumPowerR_processAsset, onlinePowerSum_cons]
    ring

theorem lookupR_foldl (assets : List Asset) :
    ∀ (racks : List (String × RackAgg)) (k : String),
      lookupR (List.foldl processAsset racks assets) k =
        match lookupR racks k with
        | some m =>
          some ⟨m.units_used + specUnits assets k, m.power_used_watts + specPower assets k⟩
        | none =>
          if k ∈ assets.map Asset.rack_id then some ⟨specUnits assets k, specPower assets k⟩
          else none := by
  induction assets with
  | nil =>
    intro racks k
    cases hk : lookupR racks k with
    | none => simpa using hk
    | some m =>
      simp only [List.foldl_nil, specUnits, specPower, List.filter_nil, List.map_nil,
        List.sum_nil, add_zero]
      rw [hk]
  | cons a rest ih =>
    intro racks k
    simp only [List.foldl_cons]
    rw [ih, lookupR_processAsset, specUnits_cons, specPower_cons]
    cases hk : lookupR racks k with
    | some m =>
      by_cases hc : a.rack_id = k ∧ a.status = "Online"
      · simp [hc, add_assoc]
      · simp [hc]
    | none =>
      by_cases hm : a.rack_id = k
      · by_cases ho : a.status = "Online"
        · simp [hm, ho]
        · have hc : ¬(a.rack_id = k ∧ a.status = "Online") := fun hx => ho hx.2
          simp [hm, ho, hc]
      · have hc : ¬(a.rack_id = k ∧ a.status = "Online") := fun hx => hm hx.1
        have hm2 : ¬k = a.rack_id := fun hx => hm hx.symm
        simp [hm, hm2, hc]

theorem metrics_foldl (l : List (String × RackAgg)) :
    ∀ acc : List CapacityMetric × ℚ,
      l.foldl (fun acc rm => (acc.1 ++ [mkCapacityMetric rm], acc.2 + rm.2.power_used_watts))
          acc =
        (acc.1 ++ l.map mkCapacityMetric, acc.2 + sumPowerR l) := by
  induction l with
  | nil => intro acc; simp [sumPowerR]
  | cons rm rest ih =>
    intro acc
    simp only [List.foldl_cons]
    rw [ih]
    simp [sumPowerR, add_assoc]

theorem analyze_metrics (assets : List Asset) :
    (analyze_capacity assets).1 = (racksOf assets).map mkCapacityMetric := by
  simp [analyze_capacity, metrics_foldl]

theorem analyze_total_assets (assets : List Asset) :
    (analyze_capacity assets).2.1 = assets.length := rfl

theorem analyze_total_power (assets : List Asset) :
    (analyze_capacity assets).2.2 = sumPowerR (racksOf assets) := by
  simp [analyze_capacity, metrics_foldl]

theorem compliance_foldl (assets : List Asset) :
    ∀ acc, List.foldl complianceStep acc assets =
      (acc.1 ++ (assets.filter eolPred).map mkEolRec,
        acc.2 ++ (assets.filter vendorPred).map mkVendorRec) := by
  induction assets with
  | nil => intro acc; simp
  | cons a rest ih =>
    intro acc
    simp only [List.foldl_cons]
    rw [ih]
    simp only [complianceStep, List.filter_cons]
    cases he : eolPred a <;> cases hv : vendorPred a <;> simp [he, hv]

/-! ## Lemmas about first-appearance order -/

theorem mem_foldl_insSeen (l : List String) :
    ∀ acc r, r ∈ List.foldl insSeen acc l ↔ r ∈ acc ∨ r ∈ l := by
  induction l with
  | nil => intro acc r; simp
  | cons x rest ih =>
    intro acc r
    simp only [List.foldl_cons]
    rw [ih]
    simp only [insSeen]
    by_cases hx : x ∈ acc
    · rw [if_pos hx]
      simp only [List.mem_cons]
      constructor
      · rintro (h | h)
        · exact Or.inl h
        · exact Or.inr (Or.inr h)
      · rintro (h | h | h)
        · exact Or.inl h
        · exact Or.inl (h ▸ hx)
        · exact Or.inr h
    · rw [if_neg hx]
      simp only [List.mem_append, List.mem_singleton, List.mem_cons]
      tauto

theorem nodup_foldl_insSeen (l : List String) :
    ∀ acc, acc.Nodup → (List.foldl insSeen acc l).Nodup := by
  induction l with
  | nil => intro acc h; exact h
  | cons x rest ih =>
    intro acc h
    simp only [List.foldl_cons]
    apply ih
    simp only [insSeen]
    split_ifs with hx
    · exact h
    · refine List.Nodup.append h (List.nodup_singleton x) ?_
      rw [List.disjoint_singleton]
      exact hx

/-! ## Heap-threading lemmas for the frame property -/

theorem foldl_analyzeStepH_fst (idx : List Nat) :
    ∀ heap racks, (List.foldl analyzeStepH (heap, racks) idx).1 = heap := by
  induction idx with
  | nil => intro heap racks; rfl
  | cons i rest ih =>
    intro heap racks
    simp only [List.foldl_cons, analyzeStepH]
    exact ih heap _

theorem foldl_analyzeStepH_snd (idx : List Nat) :
    ∀ heap racks, (List.foldl analyzeStepH (heap, racks) idx).2 =
      List.foldl processAsset racks (idx.map (readAsset heap)) := by
  induction idx with
  | nil => intro heap racks; rfl
  | cons i rest ih =>
    intro heap racks
    simp only [List.foldl_cons, List.map_cons, analyzeStepH]
    exact ih heap _

theorem foldl_complianceStepH_fst (idx : List Nat) :
    ∀ heap acc, (List.foldl complianceStepH (heap, acc) idx).1 = heap := by
  induction idx with
  | nil => intro heap acc; rfl
  | cons i rest ih =>
    intro heap acc
    simp only [List.foldl_cons, complianceStepH]
    exact ih heap _

theorem foldl_complianceStepH_snd (idx : List Nat) :
    ∀ heap acc, (List.foldl complianceStepH (heap, acc) idx).2 =
      List.foldl complianceStep acc (idx.map (readAsset heap)) := by
  induction idx with
  | nil => intro heap acc; rfl
  | cons i rest ih =>
    intro heap acc
    simp only [List.foldl_cons, List.map_cons, complianceStepH]
    exact ih heap _

theorem map_readAsset_range (heap : List Asset) :
    (List.range heap.length).map (readAsset heap) = heap := by
  induction heap with
  | nil => rfl
  | cons x xs ih =>
    simp only [List.length_cons, List.range_succ_eq_map, List.map_cons, List.map_map]
    exact congrArg (fun t => x :: t) ((List.map_congr_left fun i _ => rfl).trans ih)

/-! ## Claim theorems -/

/-- C1: every rack metric emitted by `analyze_capacity` carries
`units_utilization = 100 * units_used / MAX_RACK_UNITS` and
`power_utilization = 100 * (power_used_watts / 1000) / MAX_RACK_POWER_KVA`,
and neither value is clamped: when the used capacity exceeds the fixed
limit the rational fed to the formatter exceeds 100 and is emitted
unchanged. -/
theorem c1_utilization_formula (assets : List Asset) (rm : String × RackAgg)
    (hm : rm ∈ racksOf assets) :
    mkCapacityMetric rm ∈ (analyze_capacity assets).1
    ∧ mkCapacityMetric rm =
      ⟨rm.1, rm.2.units_used, fmtFixed 2 (rm.2.power_used_watts / 1000),
        fmtPct (100 * (rm.2.power_used_watts / 1000) / MAX_RACK_POWER_KVA),
        fmtPct (100 * (rm.2.units_used : ℚ) / (MAX_RACK_UNITS : ℚ))⟩
    ∧ ((MAX_RACK_UNITS : ℚ) < (rm.2.units_used : ℚ) →
        100 < 100 * (rm.2.units_used : ℚ) / (MAX_RACK_UNITS : ℚ))
    ∧ (MAX_RACK_POWER_KVA < rm.2.power_used_watts / 1000 →
        100 < 100 * (rm.2.power_used_watts / 1000) / MAX_RACK_POWER_KVA) := by
  refine ⟨?_, ?_, ?_, ?_⟩
  · rw [analyze_metrics]
    exact List.mem_map_of_mem _ hm
  · have h1 : rm.2.power_used_watts / 1000 / MAX_RACK_POWER_KVA * 100
        = 100 * (rm.2.power_used_watts / 1000) / MAX_RACK_POWER_KVA := by ring
    have h2 : (rm.2.units_used : ℚ) / (MAX_RACK_UNITS : ℚ) * 100
        = 100 * (rm.2.units_used : ℚ) / (MAX_RACK_UNITS : ℚ) := by ring
    simp only [mkCapacityMetric]
    rw [h1, h2]
  · intro h
    have h42 : (0 : ℚ) < (MAX_RACK_UNITS : ℚ) := by norm_num [MAX_RACK_UNITS]
    rw [lt_div_iff₀ h42]
    have := mul_lt_mul_of_pos_left h (show (0 : ℚ) < 100 by norm_num)
    linarith
  · intro h
    have h5 : (0 : ℚ) < MAX_RACK_POWER_KVA := by norm_num [MAX_RACK_POWER_KVA]
    rw [lt_div_iff₀ h5]
    have := mul_lt_mul_of_pos_left h (show (0 : ℚ) < 100 by norm_num)
    linarith

/-- C1 witness: a single online asset with 50 U and 6000 W overfills rack R1;
its metric is emitted and both utilization values exceed 100. -/
theorem c1_utilization_formula_witness :
    mkCapacityMetric wRack ∈ (analyze_capacity [wAsset1]).1
    ∧ (100 : ℚ) < 100 * (wRack.2.units_used : ℚ) / (MAX_RACK_UNITS : ℚ)
    ∧ (100 : ℚ) < 100 * (wRack.2.power_used_watts / 1000) / MAX_RACK_POWER_KVA := by
  have e : racksOf [wAsset1] = [wRack] := by
    simp [racksOf, processAsset, lookupR, updateR, wAsset1, wRack]
  have h := c1_utilization_formula [wAsset1] wRack (by rw [e]; exact List.mem_singleton.mpr rfl)
  exact ⟨h.1, h.2.2.1 (by norm_num [wRack, MAX_RACK_UNITS]),
    h.2.2.2 (by norm_num [wRack, MAX_RACK_POWER_KVA])⟩

/-- C2: the EOL output of `check_compliance_and_eol` is exactly the
input-ordered sequence of assets with `asset_age_years >= EOL_AGE_YEARS` and
`status != 'Decom Pending'`; in particular a `Decom Pending` asset is never
flagged regardless of age. -/
theorem c2_eol_classification (assets : List Asset) :
    (check_compliance_and_eol assets).1 = (assets.filter eolPred).map mkEolRec
    ∧ (∀ a : Asset, eolPred a = true ↔
        (EOL_AGE_YEARS ≤ a.asset_age_years ∧ a.status ≠ "Decom Pending"))
    ∧ (∀ a : Asset, a.status = "Decom Pending" → eolPred a = false) := by
  refine ⟨?_, ?_, ?_⟩
  · unfold check_compliance_and_eol
    rw [compliance_foldl]
    simp
  · intro a
    simp [eolPred]
  · intro a h
    simp [eolPred, h]

/-- C2 witness: an asset of age 10 with status `Decom Pending` is exempt and
the EOL output over it is empty. -/
theorem c2_eol_classification_witness :
    (check_compliance_and_eol [wAssetDecom]).1 = ([wAssetDecom].filter eolPred).map mkEolRec
    ∧ eolPred wAssetDecom = false := by
  have h := c2_eol_classification [wAssetDecom]
  exact ⟨h.1, h.2.2 wAssetDecom rfl⟩

/-- C3: the vendor-risk output of `check_compliance_and_eol` is exactly the
input-ordered sequence of assets whose vendor is in `CRITICAL_VENDORS` and
whose status is `Online`; a critical-vendor asset in any other status is
never flagged. -/
theorem c3_vendor_classification (assets : List Asset) :
    (check_compliance_and_eol assets).2 = (assets.filter vendorPred).map mkVendorRec
    ∧ (∀ a : Asset, vendorPred a = true ↔
        (a.vendor ∈ CRITICAL_VENDORS ∧ a.status = "Online"))
    ∧ (∀ a : Asset, a.vendor ∈ CRITICAL_VENDORS → a.status ≠ "Online" →
        vendorPred a = false) := by
  refine ⟨?_, ?_, ?_⟩
  · unfold check_compliance_and_eol
    rw [compliance_foldl]
    simp
  · intro a
    simp [vendorPred]
  · intro a hv h
    simp [vendorPred, h]

/-- C3 witness: an offline EMC asset is not flagged and the vendor-risk
output over it is empty. -/
theorem c3_vendor_classification_witness :
    (check_compliance_and_eol [wAssetVendOff]).2 =
      ([wAssetVendOff].filter vendorPred).map mkVendorRec
    ∧ vendorPred wAssetVendOff = false := by
  have h := c3_vendor_classification [wAssetVendOff]
  exact ⟨h.1, h.2.2 wAssetVendOff (by decide) (by decide)⟩

/-- C4: `analyze_capacity` returns the input length as total asset count
(online or not), the sum of `power_watts` over exactly the online assets as
total power, and every rack aggregate holds exactly the unit/watt sums of
the online assets naming that rack, so each asset contributes to exactly
one rack and only when online. -/
theorem c4_totals_and_partition (assets : List Asset) :
    (analyze_capacity assets).2.1 = assets.length
    ∧ (analyze_capacity assets).2.2 = onlinePowerSum assets
    ∧ ∀ rid : String,
        lookupR (racksOf assets) rid =
          if rid ∈ assets.map Asset.rack_id then
            some ⟨specUnits assets rid, specPower assets rid⟩
          else none := by
  refine ⟨rfl, ?_, ?_⟩
  · rw [analyze_total_power]
    unfold racksOf
    rw [sumPowerR_foldl]
    simp [sumPowerR]
  · intro rid
    unfold racksOf
    rw [lookupR_foldl]
    rfl

/-- C5: the capacity metrics carry exactly one entry per distinct `rack_id`,
in order of first appearance in the input; a rack referenced only by
non-online assets still appears, with zero units used and both utilization
strings `0.0%`. -/
theorem c5_metrics_per_rack (assets : List Asset) :
    ((analyze_capacity assets).1).map CapacityMetric.rack_id =
      firstSeen (assets.map Asset.rack_id)
    ∧ (((analyze_capacity assets).1).map CapacityMetric.rack_id).Nodup
    ∧ ∀ rid : String, rid ∈ assets.map Asset.rack_id →
        (∀ a ∈ assets, a.rack_id = rid → a.status ≠ "Online") →
        ∃ m ∈ (analyze_capacity assets).1,
          m.rack_id = rid ∧ m.units_used = 0 ∧ m.units_utilization = "0.0%"
            ∧ m.power_utilization = "0.0%" := by
  have hkeys : ((analyze_capacity assets).1).map CapacityMetric.rack_id =
      keysOf (racksOf assets) := by
    rw [analyze_metrics, List.map_map]
    exact List.map_congr_left fun rm _ => rfl
  refine ⟨?_, ?_, ?_⟩
  · rw [hkeys]
    unfold racksOf
    rw [keysOf_foldl]
    rfl
  · rw [hkeys]
    unfold racksOf
    rw [keysOf_foldl]
    exact nodup_foldl_insSeen _ _ (by simp [keysOf])
  · intro rid hmem hoff
    have hfilter : assets.filter (fun a => a.rack_id == rid && a.status == "Online") = [] := by
      rw [List.filter_eq_nil_iff]
      intro a ha
      simp only [Bool.and_eq_true, beq_iff_eq, not_and]
      intro h1 h2
      exact hoff a ha h1 h2
    have hU : specUnits assets rid = 0 := by simp [specUnits, hfilter]
    have hP : specPower assets rid = 0 := by simp [specPower, hfilter]
    have hlook : lookupR (racksOf assets) rid = some ⟨0, 0⟩ := by
      unfold racksOf
      rw [lookupR_foldl]
      simp [lookupR, hmem, hU, hP]
    have hrm : (rid, (⟨0, 0⟩ : RackAgg)) ∈ racksOf assets := mem_of_lookupR _ _ _ hlook
    refine ⟨mkCapacityMetric (rid, ⟨0, 0⟩), ?_, rfl, rfl, ?_, ?_⟩
    · rw [analyze_metrics]
      exact List.mem_map_of_mem _ hrm
    · show fmtPct (((0 : ℤ) : ℚ) / (MAX_RACK_UNITS : ℚ) * 100) = "0.0%"
      norm_num [fmtPct, fmtFixed, roundHalfEven, ratFloor, padZeros, srep]
      decide
    · show fmtPct ((0 : ℚ) / 1000 / MAX_RACK_POWER_KVA * 100) = "0.0%"
      norm_num [fmtPct, fmtFixed, roundHalfEven, ratFloor, padZeros, srep]
      decide

/-- C5 witness: a single offline asset on rack R2 still yields a metric for
R2, with zero units used and `0.0%` utilizations. -/
theorem c5_metrics_per_rack_witness :
    ((analyze_capacity [wAssetOffline]).1).map CapacityMetric.rack_id =
      firstSeen ([wAssetOffline].map Asset.rack_id)
    ∧ ∃ m ∈ (analyze_capacity [wAssetOffline]).1,
        m.rack_id = "R2" ∧ m.units_used = 0 ∧ m.units_utilization = "0.0%"
          ∧ m.power_utilization = "0.0%" := by
  have h := c5_metrics_per_rack [wAssetOffline]
  exact ⟨h.1, h.2.2 "R2" (by simp [wAssetOffline]) (by simp [wAssetOffline])⟩

/-- C6 counterexample: with the empty asset list (the load-failure case) the
program's entry point produces no report at all, contradicting the claim
that a report with the empty-case lines is still rendered. -/
theorem c6_counterexample : mainReport [] = none := rfl

/-- C6 amended: the core functions do degrade gracefully on empty input
(empty metrics, zero totals, empty risk sequences, and the formatter's
empty-case lines are present in the rendered lines), but the `__main__`
guard `if assets:` suppresses the report entirely, so the program emits
nothing rather than an empty, valid report. -/
theorem c6_empty_input_behavior :
    analyze_capacity [] = ([], 0, 0)
    ∧ check_compliance_and_eol [] = ([], [])
    ∧ "### EOL Assets: 0 devices identified. Compliance maintained."
        ∈ reportLines [] 0 0 [] []
    ∧ "### High-Risk Vendors: No active assets from critical vendors identified."
        ∈ reportLines [] 0 0 [] []
    ∧ mainReport [] = none := by
  refine ⟨rfl, rfl, ?_, ?_, rfl⟩
  · simp [reportLines]
  · simp [reportLines]

/-- C7: the formatter branches on emptiness of each risk sequence: the report
lines decompose into a fixed head, an EOL section that is a single
compliance-maintained line exactly when the EOL sequence is empty and
otherwise a count-bearing header, column header, rule and one row per
candidate, and a vendor section of the same shape. -/
theorem c7_formatter_branching (cm : List CapacityMetric) (ta : Nat) (tp : ℚ)
    (eol : List EolRec) (vr : List VendorRec) :
    reportLines cm ta tp eol vr =
      reportHead cm ta tp ++ eolSectionSpec eol ++ ["\n"] ++ vendorSectionSpec vr ++
        ["\n", "--- END OF REPORT ---"]
    ∧ (eol = [] → eolSectionSpec eol =
        ["### EOL Assets: 0 devices identified. Compliance maintained."])
    ∧ (eol ≠ [] → eolSectionSpec eol =
        ("### EOL Assets (Age >= 5.0 Years): " ++ toString eol.length ++
            " Devices Identified") ::
          (padR "Asset ID" 15 ++ padR "Rack ID" 10 ++ padR "Age (Yrs)" 10 ++ padR "Status" 15) ::
          srep '-' 50 :: eol.map eolRow
        ∧ (eol.map eolRow).length = eol.length)
    ∧ (vr = [] → vendorSectionSpec vr =
        ["### High-Risk Vendors: No active assets from critical vendors identified."])
    ∧ (vr ≠ [] → vendorSectionSpec vr =
        ("### High-Risk Vendor Assets (" ++ String.intercalate ", " CRITICAL_VENDORS ++ "): " ++
            toString vr.length ++ " Devices Identified") ::
          (padR "Asset ID" 15 ++ padR "Rack ID" 10 ++ padR "Vendor" 10 ++ padR "Age (Yrs)" 10) ::
          srep '-' 45 :: vr.map vendorRow
        ∧ (vr.map vendorRow).length = vr.length) := by
  refine ⟨?_, ?_, ?_, ?_, ?_⟩
  · by_cases he : eol = [] <;> by_cases hv : vr = [] <;>
      simp [reportLines, reportHead, eolSectionSpec, vendorSectionSpec, he, hv]
  · intro h
    simp [eolSectionSpec, h]
  · intro h
    exact ⟨by simp [eolSectionSpec, h], by simp⟩
  · intro h
    simp [vendorSectionSpec, h]
  · intro h
    exact ⟨by simp [vendorSectionSpec, h], by simp⟩

/-- C7 witness: both branch shapes realized on concrete inputs: empty and
one-element risk sequences. -/
theorem c7_formatter_branching_witness :
    eolSectionSpec [] = ["### EOL Assets: 0 devices identified. Compliance maintained."]
    ∧ vendorSectionSpec [] =
        ["### High-Risk Vendors: No active assets from critical vendors identified."]
    ∧ eolSectionSpec [wEol] =
        ("### EOL Assets (Age >= 5.0 Years): " ++ toString ([wEol] : List EolRec).length ++
            " Devices Identified") ::
          (padR "Asset ID" 15 ++ padR "Rack ID" 10 ++ padR "Age (Yrs)" 10 ++ padR "Status" 15) ::
          srep '-' 50 :: ([wEol] : List EolRec).map eolRow
    ∧ vendorSectionSpec [wVend] =
        ("### High-Risk Vendor Assets (" ++ String.intercalate ", " CRITICAL_VENDORS ++ "): " ++
            toString ([wVend] : List VendorRec).length ++ " Devices Identified") ::
          (padR "Asset ID" 15 ++ padR "Rack ID" 10 ++ padR "Vendor" 10 ++ padR "Age (Yrs)" 10) ::
          srep '-' 45 :: ([wVend] : List VendorRec).map vendorRow := by
  have h1 := c7_formatter_branching [] 0 0 [] [wVend]
  have h2 := c7_formatter_branching [] 0 0 [wEol] []
  exact ⟨h1.2.1 rfl, h2.2.2.2.1 rfl, (h2.2.2.1 (by simp)).1, (h1.2.2.2.2 (by simp)).1⟩

/-! ## Propagation and abort lemmas for the dictionary-level run -/

theorem analyzeWf_of_wf (a : AssetD) (h : wfAssetD a) : analyzeWfD a :=
  ⟨h.2.1, h.2.2.1, fun _ => ⟨h.2.2.2.1, h.2.2.2.2.1⟩⟩

theorem buildRacksD_wf_step (a : AssetD) (h : analyzeWfD a) (l : List AssetD)
    (racks : List (PyVal × RackAggD)) :
    ∃ racks2, buildRacksD (a :: l) racks = buildRacksD l racks2 := by
  obtain ⟨⟨rid, hrid⟩, ⟨st, hst⟩, honline⟩ := h
  by_cases hOn : st = PyVal.s "Online"
  · subst hOn
    obtain ⟨⟨u, hu⟩, ⟨p, hp⟩⟩ := honline hst
    refine ⟨updateRD (if lookupRD racks rid = none then racks ++ [(rid, ⟨0, 0⟩)] else racks) rid
      (fun m => ⟨m.units_used + u, m.power_used_watts + p⟩), ?_⟩
    simp [buildRacksD, getItemD, hrid, hst, hu, hp, asNum]
  · refine ⟨if lookupRD racks rid = none then racks ++ [(rid, ⟨0, 0⟩)] else racks, ?_⟩
    simp [buildRacksD, getItemD, hrid, hst, hOn]

theorem buildRacksD_wf_head (pre : List AssetD) :
    (∀ a ∈ pre, analyzeWfD a) → ∀ (l : List AssetD) (racks : List (PyVal × RackAggD)),
      ∃ racks2, buildRacksD (pre ++ l) racks = buildRacksD l racks2 := by
  induction pre with
  | nil => intro _ l racks; exact ⟨racks, rfl⟩
  | cons a pre2 ih =>
    intro hpre l racks
    obtain ⟨racks1, h1⟩ :=
      buildRacksD_wf_step a (hpre a (List.mem_cons_self a pre2)) (pre2 ++ l) racks
    obtain ⟨racks2, h2⟩ := ih (fun b hb => hpre b (List.mem_cons_of_mem a hb)) l racks1
    exact ⟨racks2, by rw [List.cons_append, h1, h2]⟩

theorem analyzeCapacityD_wf_ok (assets : List AssetD) (h : ∀ a ∈ assets, analyzeWfD a) :
    isOkE (analyzeCapacityD assets) = true := by
  obtain ⟨racks2, hr⟩ := buildRacksD_wf_head assets h [] []
  rw [List.append_nil] at hr
  have hr2 : buildRacksD assets [] = Except.ok racks2 := hr
  simp [analyzeCapacityD, isOkE, hr2]

theorem checkOneD_wf_ok (a : AssetD) (h : wfAssetD a) (acc : List EolRecD × List VendorRecD) :
    ∃ acc2, checkOneD acc a = Except.ok acc2 := by
  obtain ⟨⟨aid, haid⟩, ⟨rid, hrid⟩, ⟨st, hst⟩, ⟨u, hu⟩, ⟨p, hp⟩, ⟨q, hq⟩, ⟨v, hv⟩⟩ := h
  by_cases hge : EOL_AGE_YEARS ≤ q <;>
    by_cases hdp : st = PyVal.s "Decom Pending" <;>
      by_cases hcr : ∃ x ∈ CRITICAL_VENDORS, PyVal.s x = v <;>
        by_cases hon : st = PyVal.s "Online" <;>
          simp [checkOneD, getItemD, haid, hrid, hst, hq, hv, pyGe, hge, hdp, hcr, hon]

theorem checkComplianceD_wf_head (pre : List AssetD) :
    (∀ a ∈ pre, wfAssetD a) → ∀ (l : List AssetD) (acc : List EolRecD × List VendorRecD),
      ∃ acc2, checkComplianceD (pre ++ l) acc = checkComplianceD l acc2 := by
  induction pre with
  | nil => intro _ l acc; exact ⟨acc, rfl⟩
  | cons a pre2 ih =>
    intro hpre l acc
    obtain ⟨acc1, h1⟩ := checkOneD_wf_ok a (hpre a (List.mem_cons_self a pre2)) acc
    obtain ⟨acc2, h2⟩ := ih (fun b hb => hpre b (List.mem_cons_of_mem a hb)) l acc1
    refine ⟨acc2, ?_⟩
    rw [List.cons_append]
    simp [checkComplianceD, h1, h2]

theorem checkComplianceD_error_head (d : AssetD) (l : List AssetD)
    (acc : List EolRecD × List VendorRecD) (e : PyErr) (h : checkOneD acc d = Except.error e) :
    checkComplianceD (d :: l) acc = Except.error e := by
  simp [checkComplianceD, h]

theorem buildRacksD_missing_rack_id (d : AssetD) (l : List AssetD)
    (racks : List (PyVal × RackAggD)) (h : lookupD d "rack_id" = none) :
    buildRacksD (d :: l) racks = Except.error (PyErr.keyError "rack_id") := by
  simp [buildRacksD, getItemD, h]

theorem buildRacksD_missing_status (d : AssetD) (l : List AssetD)
    (racks : List (PyVal × RackAggD)) (rid : PyVal) (h1 : lookupD d "rack_id" = some rid)
    (h2 : lookupD d "status" = none) :
    buildRacksD (d :: l) racks = Except.error (PyErr.keyError "status") := by
  simp [buildRacksD, getItemD, h1, h2]

theorem buildRacksD_missing_rack_units (d : AssetD) (l : List AssetD)
    (racks : List (PyVal × RackAggD)) (rid : PyVal) (h1 : lookupD d "rack_id" = some rid)
    (h2 : lookupD d "status" = some (PyVal.s "Online")) (h3 : lookupD d "rack_units" = none) :
    buildRacksD (d :: l) racks = Except.error (PyErr.keyError "rack_units") := by
  simp [buildRacksD, getItemD, h1, h2, h3]

theorem buildRacksD_missing_power_watts (d : AssetD) (l : List AssetD)
    (racks : List (PyVal × RackAggD)) (rid : PyVal) (u : ℚ)
    (h1 : lookupD d "rack_id" = some rid)
    (h2 : lookupD d "status" = some (PyVal.s "Online"))
    (h3 : lookupD d "rack_units" = some (PyVal.num u))
    (h4 : lookupD d "power_watts" = none) :
    buildRacksD (d :: l) racks = Except.error (PyErr.keyError "power_watts") := by
  simp [buildRacksD, getItemD, h1, h2, h3, h4, asNum]

theorem checkOneD_missing_age (d : AssetD) (acc : List EolRecD × List VendorRecD)
    (h : lookupD d "asset_age_years" = none) :
    checkOneD acc d = Except.error (PyErr.keyError "asset_age_years") := by
  simp [checkOneD, getItemD, h]

theorem checkOneD_missing_vendor (d : AssetD) (acc : List EolRecD × List VendorRecD) (q : ℚ)
    (h1 : lookupD d "asset_age_years" = some (PyVal.num q)) (h2 : ¬EOL_AGE_YEARS ≤ q)
    (h3 : lookupD d "vendor" = none) :
    checkOneD acc d = Except.error (PyErr.keyError "vendor") := by
  simp [checkOneD, getItemD, pyGe, h1, h2, h3]

theorem checkOneD_missing_asset_id_eol (d : AssetD) (acc : List EolRecD × List VendorRecD)
    (q : ℚ) (st : PyVal) (h1 : lookupD d "asset_age_years" = some (PyVal.num q))
    (h2 : EOL_AGE_YEARS ≤ q) (h3 : lookupD d "status" = some st)
    (h4 : st ≠ PyVal.s "Decom Pending") (h5 : lookupD d "asset_id" = none) :
    checkOneD acc d = Except.error (PyErr.keyError "asset_id") := by
  simp [checkOneD, getItemD, pyGe, h1, h2, h3, h4, h5]

theorem checkOneD_missing_asset_id_vendor (d : AssetD) (acc : List EolRecD × List VendorRecD)
    (q : ℚ) (v : PyVal) (h1 : lookupD d "asset_age_years" = some (PyVal.num q))
    (h2 : ¬EOL_AGE_YEARS ≤ q) (h3 : lookupD d "vendor" = some v)
    (h4 : (CRITICAL_VENDORS.map PyVal.s).contains v = true)
    (h5 : lookupD d "status" = some (PyVal.s "Online"))
    (h6 : lookupD d "asset_id" = none) :
    checkOneD acc d = Except.error (PyErr.keyError "asset_id") := by
  simp [checkOneD, getItemD, pyGe, h1, h2, h3, h5, h6]
  simpa using h4

theorem runD_of_buildRacksD_error (assets : List AssetD) (e : PyErr)
    (h : buildRacksD assets [] = Except.error e) : runD assets = Except.error e := by
  simp [runD, analyzeCapacityD, h]

theorem runD_of_check_error (assets : List AssetD) (e : PyErr)
    (hok : isOkE (analyzeCapacityD assets) = true)
    (h : checkComplianceD assets ([], []) = Except.error e) : runD assets = Except.error e := by
  cases hx : analyzeCapacityD assets with
  | error e2 => rw [hx] at hok; simp [isOkE] at hok
  | ok out => simp [runD, hx, h]

/-- C8 counterexample: a record missing the required `asset_id` field whose
other fields keep every reading branch cold (non-online, young, non-critical
vendor) runs to completion, so a missing required field does not always fail
the run. -/
theorem c8_counterexample :
    lookupD dictMissingAssetId "asset_id" = none
    ∧ isOkE (runD [dictMissingAssetId]) = true := ⟨rfl, rfl⟩

/-- C8 amended: a record missing the first field the run reads aborts the
entire run, at any position after well-formed records, with a `KeyError`
naming that field and no partial output: `rack_id` and `status` during
aggregation, `rack_units`/`power_watts` when online, `asset_age_years`,
`vendor` and flagged `asset_id` during classification once aggregation
succeeded over the whole input; the error is identical for records
differing only in their asset id, so it does not identify the offending
record, and a record missing a field no branch reads does not fail the
run. -/
theorem c8_missing_field_behavior :
    (∀ (pre : List AssetD) (d : AssetD) (rest : List AssetD), (∀ a ∈ pre, wfAssetD a) →
      lookupD d "rack_id" = none →
      runD (pre ++ d :: rest) = Except.error (PyErr.keyError "rack_id"))
    ∧ (∀ (pre : List AssetD) (d : AssetD) (rest : List AssetD) (rid : PyVal),
        (∀ a ∈ pre, wfAssetD a) → lookupD d "rack_id" = some rid →
        lookupD d "status" = none →
        runD (pre ++ d :: rest) = Except.error (PyErr.keyError "status"))
    ∧ (∀ (pre : List AssetD) (d : AssetD) (rest : List AssetD) (rid : PyVal),
        (∀ a ∈ pre, wfAssetD a) → lookupD d "rack_id" = some rid →
        lookupD d "status" = some (PyVal.s "Online") → lookupD d "rack_units" = none →
        runD (pre ++ d :: rest) = Except.error (PyErr.keyError "rack_units"))
    ∧ (∀ (pre : List AssetD) (d : AssetD) (rest : List AssetD) (rid : PyVal) (u : ℚ),
        (∀ a ∈ pre, wfAssetD a) → lookupD d "rack_id" = some rid →
        lookupD d "status" = some (PyVal.s "Online") →
        lookupD d "rack_units" = some (PyVal.num u) → lookupD d "power_watts" = none →
        runD (pre ++ d :: rest) = Except.error (PyErr.keyError "power_watts"))
    ∧ (∀ (pre : List AssetD) (d : AssetD) (rest : List AssetD),
        (∀ a ∈ pre, wfAssetD a) → analyzeWfD d → (∀ a ∈ rest, analyzeWfD a) →
        lookupD d "asset_age_years" = none →
        runD (pre ++ d :: rest) = Except.error (PyErr.keyError "asset_age_years"))
    ∧ (∀ (pre : List AssetD) (d : AssetD) (rest : List AssetD) (q : ℚ),
        (∀ a ∈ pre, wfAssetD a) → analyzeWfD d → (∀ a ∈ rest, analyzeWfD a) →
        lookupD d "asset_age_years" = some (PyVal.num q) → ¬EOL_AGE_YEARS ≤ q →
        lookupD d "vendor" = none →
        runD (pre ++ d :: rest) = Except.error (PyErr.keyError "vendor"))
    ∧ (∀ (pre : List AssetD) (d : AssetD) (rest : List AssetD) (q : ℚ) (st : PyVal),
        (∀ a ∈ pre, wfAssetD a) → analyzeWfD d → (∀ a ∈ rest, analyzeWfD a) →
        lookupD d "asset_age_years" = some (PyVal.num q) → EOL_AGE_YEARS ≤ q →
        lookupD d "status" = some st → st ≠ PyVal.s "Decom Pending" →
        lookupD d "asset_id" = none →
        runD (pre ++ d :: rest) = Except.error (PyErr.keyError "asset_id"))
    ∧ (∀ (pre : List AssetD) (d : AssetD) (rest : List AssetD) (q : ℚ) (v : PyVal),
        (∀ a ∈ pre, wfAssetD a) → analyzeWfD d → (∀ a ∈ rest, analyzeWfD a) →
        lookupD d "asset_age_years" = some (PyVal.num q) → ¬EOL_AGE_YEARS ≤ q →
        lookupD d "vendor" = some v → (CRITICAL_VENDORS.map PyVal.s).contains v = true →
        lookupD d "status" = some (PyVal.s "Online") → lookupD d "asset_id" = none →
        runD (pre ++ d :: rest) = Except.error (PyErr.keyError "asset_id"))
    ∧ runD [dictMissingRackA1] = Except.error (PyErr.keyError "rack_id")
    ∧ runD [dictMissingRackA1] = runD [dictMissingRackA2]
    ∧ lookupD dictMissingAssetId "asset_id" = none
    ∧ isOkE (runD [dictMissingAssetId]) = true := by
  have hall : ∀ (pre : List AssetD) (d : AssetD) (rest : List AssetD),
      (∀ a ∈ pre, wfAssetD a) → analyzeWfD d → (∀ a ∈ rest, analyzeWfD a) →
      ∀ a ∈ pre ++ d :: rest, analyzeWfD a := by
    intro pre d rest hpre hd hrest a ha
    rcases List.mem_append.mp ha with h1 | h1
    · exact analyzeWf_of_wf a (hpre a h1)
    · rcases List.mem_cons.mp h1 with rfl | h2
      · exact hd
      · exact hrest a h2
  refine ⟨?_, ?_, ?_, ?_, ?_, ?_, ?_, ?_, rfl, rfl, rfl, rfl⟩
  · intro pre d rest hpre h
    obtain ⟨racks2, hr⟩ :=
      buildRacksD_wf_head pre (fun a ha => analyzeWf_of_wf a (hpre a ha)) (d :: rest) []
    exact runD_of_buildRacksD_error _ _
      (hr.trans (buildRacksD_missing_rack_id d rest racks2 h))
  · intro pre d rest rid hpre h1 h2
    obtain ⟨racks2, hr⟩ :=
      buildRacksD_wf_head pre (fun a ha => analyzeWf_of_wf a (hpre a ha)) (d :: rest) []
    exact runD_of_buildRacksD_error _ _
      (hr.trans (buildRacksD_missing_status d rest racks2 rid h1 h2))
  · intro pre d rest rid hpre h1 h2 h3
    obtain ⟨racks2, hr⟩ :=
      buildRacksD_wf_head pre (fun a ha => analyzeWf_of_wf a (hpre a ha)) (d :: rest) []
    exact runD_of_buildRacksD_error _ _
      (hr.trans (buildRacksD_missing_rack_units d rest racks2 rid h1 h2 h3))
  · intro pre d rest rid u hpre h1 h2 h3 h4
    obtain ⟨racks2, hr⟩ :=
      buildRacksD_wf_head pre (fun a ha => analyzeWf_of_wf a (hpre a ha)) (d :: rest) []
    exact runD_of_buildRacksD_error _ _
      (hr.trans (buildRacksD_missing_power_watts d rest racks2 rid u h1 h2 h3 h4))
  · intro pre d rest hpre hd hrest h
    obtain ⟨acc2, hc⟩ := checkComplianceD_wf_head pre hpre (d :: rest) ([], [])
    exact runD_of_check_error _ _ (analyzeCapacityD_wf_ok _ (hall pre d rest hpre hd hrest))
      (hc.trans (checkComplianceD_error_head d rest acc2 _ (checkOneD_missing_age d acc2 h)))
  · intro pre d rest q hpre hd hrest h1 h2 h3
    obtain ⟨acc2, hc⟩ := checkComplianceD_wf_head pre hpre (d :: rest) ([], [])
    exact runD_of_check_error _ _ (analyzeCapacityD_wf_ok _ (hall pre d rest hpre hd hrest))
      (hc.trans (checkComplianceD_error_head d rest acc2 _
        (checkOneD_missing_vendor d acc2 q h1 h2 h3)))
  · intro pre d rest q st hpre hd hrest h1 h2 h3 h4 h5
    obtain ⟨acc2, hc⟩ := checkComplianceD_wf_head pre hpre (d :: rest) ([], [])
    exact runD_of_check_error _ _ (analyzeCapacityD_wf_ok _ (hall pre d rest hpre hd hrest))
      (hc.trans (checkComplianceD_error_head d rest acc2 _
        (checkOneD_missing_asset_id_eol d acc2 q st h1 h2 h3 h4 h5)))
  · intro pre d rest q v hpre hd hrest h1 h2 h3 h4 h5 h6
    obtain ⟨acc2, hc⟩ := checkComplianceD_wf_head pre hpre (d :: rest) ([], [])
    exact runD_of_check_error _ _ (analyzeCapacityD_wf_ok _ (hall pre d rest hpre hd hrest))
      (hc.trans (checkComplianceD_error_head d rest acc2 _
        (checkOneD_missing_asset_id_vendor d acc2 q v h1 h2 h3 h4 h5 h6)))

/-- C8 witness: the amended theorem applied concretely: a record missing
`rack_id` placed after a fully well-formed record aborts the whole run with
the field-naming error. -/
theorem c8_missing_field_behavior_witness :
    runD ([dictComplete] ++ dictMissingRackA1 :: []) =
      Except.error (PyErr.keyError "rack_id") := by
  apply c8_missing_field_behavior.1 [dictComplete] dictMissingRackA1 []
  · intro a ha
    rw [List.mem_singleton] at ha
    subst ha
    exact ⟨⟨_, rfl⟩, ⟨_, rfl⟩, ⟨_, rfl⟩, ⟨2, rfl⟩, ⟨500, rfl⟩, ⟨6, rfl⟩, ⟨_, rfl⟩⟩
  · rfl

/-- C9: the pipeline is deterministic: equal input asset sequences produce
byte-identical report text; the embedding is a pure function and Python's
insertion-ordered dict iteration is modelled deterministically. -/
theorem c9_deterministic (a b : List Asset) (h : a = b) : reportOf a = reportOf b := by
  rw [h]

/-- C9 witness: two runs over an identical concrete input agree. -/
theorem c9_deterministic_witness : reportOf [wAsset1] = reportOf [wAsset1] :=
  c9_deterministic [wAsset1] [wAsset1] rfl

/-- C10: neither loop writes to the asset heap: threading the heap through
every iteration of either function leaves it unchanged, while the results
computed over the heap coincide with the pure functions of the input, so all
derived records are fresh values and the input is unmodified. -/
theorem c10_frame (heap : List Asset) (idx : List Nat)
    (racks : List (String × RackAgg)) (acc : List EolRec × List VendorRec) :
    (List.foldl analyzeStepH (heap, racks) idx).1 = heap
    ∧ (List.foldl complianceStepH (heap, acc) idx).1 = heap
    ∧ (List.foldl analyzeStepH (heap, racks) (List.range heap.length)).2 =
        List.foldl processAsset racks heap
    ∧ (List.foldl complianceStepH (heap, acc) (List.range heap.length)).2 =
        List.foldl complianceStep acc heap := by
  refine ⟨foldl_analyzeStepH_fst idx heap racks, foldl_complianceStepH_fst idx heap acc, ?_, ?_⟩
  · rw [foldl_analyzeStepH_snd, map_readAsset_range]
  · rw [foldl_complianceStepH_snd, map_readAsset_range]
